import Mathlib

/-!
Verification of `FriendDetectorNearby2026.ino`, a passive WiFi frame monitor.

The embedding models:
* the sniffer callback `cb`, which filters a captured frame (beacon
  suppression, RSSI gate) and, when the frame passes, emits a sequence of
  `Serial.print` tokens;
* the scheduler `loop`, which starts sniffing, and for each configured
  channel activates it and busy-waits for the dwell window, draining the
  frame queue and yielding once per wait iteration.

Side-effecting calls are modelled as event traces (`Event`); serial output
is modelled as the ordered list of printed string tokens.
-/

namespace FriendDetector

/-- `#define RSSI_THRESHOLD -60` (signed). -/
def RSSI_THRESHOLD : Int := -60

/-- `int channels[] = {1, 4, 6, 11};` -/
def channels : List Int := [1, 4, 6, 11]

/-- `int channelCount = sizeof(channels) / sizeof(channels[0]);` -/
def channelCount : Nat := channels.length

/-- The dwell duration constant used in `while (millis() - start < 250)`. -/
def DWELL_MS : Nat := 250

/-- The fields of `esppl_frame_info` that `cb` reads: frame type, frame
subtype, signed RSSI, channel, and the 6-byte source address. -/
structure EspplFrameInfo where
  frametype : Nat
  framesubtype : Nat
  rssi : Int
  channel : Nat
  sourceaddr : Fin 6 → Fin 256

/-- The ten decimal digit characters. -/
def decDigits : List Char := ['0', '1', '2', '3', '4', '5', '6', '7', '8', '9']

/-- The sixteen lowercase hexadecimal digit characters (as used by
`printf("%02x", ...)`): the decimal digits followed by `a`-`f`. -/
def hexDigits : List Char :=
  decDigits ++ ['a', 'b', 'c', 'd', 'e', 'f']

/-- The character for a decimal digit value. -/
def digitChar (d : Nat) : Char := decDigits.getD d '0'

/-- The character for a hexadecimal digit value (lowercase). -/
def hexDigitChar (d : Nat) : Char := hexDigits.getD d '0'

/-- Decimal digit characters of `n`, most significant first; `fuel` bounds
the recursion (any `fuel > n` is enough). -/
def natDecCharsAux : Nat → Nat → List Char
  | 0, _ => []
  | fuel + 1, n =>
    if n < 10 then [digitChar n]
    else natDecCharsAux fuel (n / 10) ++ [digitChar (n % 10)]

/-- Decimal rendering of a nonnegative integer, as `Serial.print(int)`
renders it. -/
def natRepr (n : Nat) : String := ⟨natDecCharsAux (n + 1) n⟩

/-- Decimal rendering of a signed integer, as `Serial.print(int)` renders
it: a leading minus sign for negative values, then the decimal digits. -/
def intRepr (i : Int) : String :=
  if i < 0 then "-" ++ natRepr i.natAbs else natRepr i.natAbs

/-- `printf("%02x", b)` for a byte `b`: two lowercase hex digits,
zero-padded. -/
def byteHex (b : Fin 256) : String :=
  ⟨[hexDigitChar (b.val / 16), hexDigitChar (b.val % 16)]⟩

/-- Concatenation of a sequence of printed tokens into the resulting
serial stream contents. -/
def joinTokens : List String → String
  | [] => ""
  | s :: rest => s ++ joinTokens rest

/-- The callback `cb`, modelled as the ordered list of `Serial.print`
tokens it emits.  Mirrors the source: beacon suppression
(`framesubtype == 8`), RSSI gate (`rssi < RSSI_THRESHOLD`), then the
report tokens, the per-byte `%02x` source address, and the conditional
`" [PROBE]"` marker. -/
def cb (info : EspplFrameInfo) : List String :=
  if info.framesubtype = 8 then []
  else if info.rssi < RSSI_THRESHOLD then []
  else
    ["\n", "FT: ", natRepr info.frametype,
     " FST: ", natRepr info.framesubtype,
     " RSSI: ", intRepr info.rssi,
     " CH: ", natRepr info.channel,
     " SRC: "]
    ++ (List.finRange 6).map (fun i => byteHex (info.sourceaddr i))
    ++ (if info.framesubtype = 4 then [" [PROBE]"] else [])

/-- Everything `cb` writes to the serial stream for one frame. -/
def serialOut (info : EspplFrameInfo) : String := joinTokens (cb info)

/-- The 6-byte source address rendered as twelve lowercase hex digits. -/
def srcHex (a : Fin 6 → Fin 256) : String :=
  joinTokens ((List.finRange 6).map (fun i => byteHex (a i)))

/-- The report line for a frame (without the leading newline separator and
without the probe marker). -/
def reportLine (info : EspplFrameInfo) : String :=
  "FT: " ++ natRepr info.frametype ++ " FST: " ++ natRepr info.framesubtype
    ++ " RSSI: " ++ intRepr info.rssi ++ " CH: " ++ natRepr info.channel
    ++ " SRC: " ++ srcHex info.sourceaddr

/-- The probe-request marker appended when `framesubtype == 4`. -/
def probeTag (info : EspplFrameInfo) : String :=
  if info.framesubtype = 4 then " [PROBE]" else ""

/-- The end-to-end sample frame of the spec:
`{type=0, subtype=4, rssi=-55, channel=6, addr=aa:bb:cc:dd:ee:ff}`. -/
def sampleFrame : EspplFrameInfo :=
  { frametype := 0
    framesubtype := 4
    rssi := -55
    channel := 6
    sourceaddr := ![170, 187, 204, 221, 238, 255] }

/-! ### Event-trace model of `setup` and `loop` -/

/-- Side-effecting calls made by `setup` and `loop`, in order.
`poll` is one call to `esppl_process_frames()`; `timeCheck` is one
evaluation of `millis() - start < 250`; `yieldCtrl` is one `yield()`. -/
inductive Event where
  | delayMs (ms : Nat)
  | serialBegin (baud : Nat)
  | espplInit
  | printBanner
  | sniffStart
  | setChannel (c : Int)
  | poll
  | timeCheck
  | yieldCtrl
  deriving DecidableEq, Repr

/-- `setup()`: fixed delay, serial init, esppl init with the callback,
banner.  The source performs no configuration validation, so the trace
does not depend on the configured channel list or dwell duration. -/
def setupEvents : List Event :=
  [Event.delayMs 500, Event.serialBegin 115200, Event.espplInit,
   Event.printBanner]

/-- `while (esppl_process_frames()) {}` when `k` frames are pending:
`k` calls that return true, then the final call that returns false. -/
def drainCalls : Nat → List Event
  | 0 => [Event.poll]
  | k + 1 => Event.poll :: drainCalls k

/-- The dwell busy-wait `while (millis() - start < DWELL_MS) { drain; yield(); }`.
`elapsed j` is the value of `millis() - start` at the `j`-th check and
`pending j` the number of frames pending at the `j`-th drain; `fuel`
bounds the number of checks (real time eventually exceeds the window). -/
def espplDwell (fuel : Nat) (elapsed pending : Nat → Nat) (j : Nat) :
    List Event :=
  match fuel with
  | 0 => []
  | f + 1 =>
    if elapsed j < DWELL_MS then
      Event.timeCheck ::
        (drainCalls (pending j) ++ (Event.yieldCtrl :: espplDwell f elapsed pending (j + 1)))
    else [Event.timeCheck]

/-- One channel visit of the `for` loop body: `esppl_set_channel(c)` then
the dwell busy-wait. -/
def visitEvents (c : Int) (fuel : Nat) (elapsed pending : Nat → Nat) :
    List Event :=
  Event.setChannel c :: espplDwell fuel elapsed pending 0

/-- One call to `loop()`: `esppl_sniffing_start()` then, for each index of
the channel list in order, a visit of `channels[i]`.  `E i` / `P i` are
the clock and queue environments of the `i`-th visit. -/
def loopEvents (chs : List Int) (fuel : Nat) (E P : Nat → Nat → Nat) :
    List Event :=
  Event.sniffStart ::
    (List.range chs.length).flatMap
      (fun i => visitEvents (chs.getD i 0) fuel (E i) (P i))

/-- The channel set by an event, if any. -/
def chanOf : Event → Option Int
  | Event.setChannel c => some c
  | _ => none

/-- The radio's active channel after a trace, given the initial one:
only `setChannel` events change it. -/
def radioAfter (init : Option Int) (tr : List Event) : Option Int :=
  tr.foldl (fun st e => match e with | Event.setChannel c => some c | _ => st)
    init

/-- The shape of one executed dwell-wait iteration: the time check that
entered the body, the queue drained to empty, then exactly one yield. -/
def iterBlock (k : Nat) : List Event :=
  Event.timeCheck :: (drainCalls k ++ [Event.yieldCtrl])

/-- The characters that can appear in a report for a non-probe frame:
the newline separator, the label letters, space, colon, minus, and the
decimal and hexadecimal digits. -/
def nonProbeChars : List Char :=
  ['\n', 'F', 'T', 'S', 'R', 'I', 'C', 'H', ' ', ':', '-'] ++ decDigits ++ hexDigits

/-- The beacon scenario of the spec: `{subtype=8, rssi=-30, channel=1}`. -/
def beaconFrame : EspplFrameInfo :=
  { frametype := 0
    framesubtype := 8
    rssi := -30
    channel := 1
    sourceaddr := ![1, 2, 3, 4, 5, 6] }

/-- A frame exactly at the RSSI threshold. -/
def thresholdFrame : EspplFrameInfo :=
  { frametype := 2
    framesubtype := 0
    rssi := -60
    channel := 11
    sourceaddr := ![16, 32, 48, 64, 80, 96] }

/-- A frame with a subtype outside the beacon/probe constants. -/
def oddSubtypeFrame : EspplFrameInfo :=
  { frametype := 1
    framesubtype := 13
    rssi := -40
    channel := 4
    sourceaddr := ![0, 1, 2, 3, 4, 5] }

/-- A frame agreeing with `oddSubtypeFrame` on subtype and RSSI but
differing in type, channel and source address. -/
def oddSubtypeFrame2 : EspplFrameInfo :=
  { frametype := 2
    framesubtype := 13
    rssi := -40
    channel := 6
    sourceaddr := ![255, 254, 253, 252, 251, 250] }

/-! ### Helper lemmas about the formatting functions -/

theorem joinTokens_append (l₁ l₂ : List String) :
    joinTokens (l₁ ++ l₂) = joinTokens l₁ ++ joinTokens l₂ := by
  induction l₁ with
  | nil =>
    apply String.ext
    simp [joinTokens, String.data_append]
  | cons s rest ih =>
    apply String.ext
    simp [joinTokens, String.data_append, String.ext_iff.mp ih]

theorem data_joinTokens (l : List String) :
    (joinTokens l).data = (l.map String.data).flatten := by
  induction l with
  | nil => rfl
  | cons s rest ih => simp [joinTokens, String.data_append, ih]

theorem digitChar_mem (d : Nat) : digitChar d ∈ decDigits := by
  unfold digitChar
  by_cases h : d < decDigits.length
  · have h10 : d < 10 := by simpa [decDigits] using h
    interval_cases d <;> decide
  · rw [List.getD_eq_default _ _ (Nat.le_of_not_lt h)]; decide

theorem hexDigitChar_mem (d : Nat) : hexDigitChar d ∈ hexDigits := by
  unfold hexDigitChar
  by_cases h : d < hexDigits.length
  · have h16 : d < 16 := by simpa [hexDigits] using h
    interval_cases d <;> decide
  · rw [List.getD_eq_default _ _ (Nat.le_of_not_lt h)]; decide

theorem natDecCharsAux_mem (fuel n : Nat) {c : Char}
    (hc : c ∈ natDecCharsAux fuel n) : c ∈ decDigits := by
  induction fuel generalizing n with
  | zero => simp [natDecCharsAux] at hc
  | succ fuel ih =>
    rw [natDecCharsAux] at hc
    split at hc
    · simp at hc
      exact hc ▸ digitChar_mem n
    · rcases List.mem_append.mp hc with h | h
      · exact ih _ h
      · simp at h
        exact h ▸ digitChar_mem _

theorem natRepr_mem {n : Nat} {c : Char} (hc : c ∈ (natRepr n).data) :
    c ∈ decDigits :=
  natDecCharsAux_mem _ _ hc

theorem intRepr_mem {i : Int} {c : Char} (hc : c ∈ (intRepr i).data) :
    c = '-' ∨ c ∈ decDigits := by
  unfold intRepr at hc
  split at hc
  · rw [String.data_append] at hc
    rcases List.mem_append.mp hc with h | h
    · left
      simpa using h
    · right
      exact natRepr_mem h
  · right
    exact natRepr_mem hc

theorem byteHex_mem {b : Fin 256} {c : Char} (hc : c ∈ (byteHex b).data) :
    c ∈ hexDigits := by
  unfold byteHex at hc
  simp at hc
  rcases hc with h | h
  · exact h ▸ hexDigitChar_mem _
  · exact h ▸ hexDigitChar_mem _

theorem natRepr_ne_probe (n : Nat) : natRepr n ≠ " [PROBE]" := by
  intro h
  have h1 : '[' ∈ (natRepr n).data := by rw [h]; decide
  have := natRepr_mem h1
  simp [decDigits] at this

theorem intRepr_ne_probe (i : Int) : intRepr i ≠ " [PROBE]" := by
  intro h
  have h1 : '[' ∈ (intRepr i).data := by rw [h]; decide
  rcases intRepr_mem h1 with h2 | h2
  · exact absurd h2 (by decide)
  · simp [decDigits] at h2

theorem byteHex_ne_probe (b : Fin 256) : byteHex b ≠ " [PROBE]" := by
  intro h
  have h1 : '[' ∈ (byteHex b).data := by rw [h]; decide
  have := byteHex_mem h1
  simp [hexDigits, decDigits] at this

theorem serialOut_eq (info : EspplFrameInfo) (h8 : info.framesubtype ≠ 8)
    (hr' : ¬ info.rssi < RSSI_THRESHOLD) :
    serialOut info = "\n" ++ (reportLine info ++ probeTag info) := by
  by_cases h4 : info.framesubtype = 4 <;>
  · apply String.ext
    simp [serialOut, cb, h8, hr', h4, data_joinTokens, reportLine,
      probeTag, srcHex, String.data_append]

theorem concat_last_ne {l₁ l₂ : List Char} (hne : l₂ ≠ [])
    (hall : ∀ c ∈ l₂, c ≠ '\n') :
    ∃ t c, l₁ ++ l₂ = t ++ [c] ∧ c ≠ '\n' := by
  induction l₂ using List.reverseRecOn with
  | nil => exact absurd rfl hne
  | append_singleton l' a ih =>
    exact ⟨l₁ ++ l', a, by simp, hall a (by simp)⟩

theorem srcHex_data (a : Fin 6 → Fin 256) :
    (srcHex a).data =
      [hexDigitChar ((a 0).val / 16), hexDigitChar ((a 0).val % 16),
       hexDigitChar ((a 1).val / 16), hexDigitChar ((a 1).val % 16),
       hexDigitChar ((a 2).val / 16), hexDigitChar ((a 2).val % 16),
       hexDigitChar ((a 3).val / 16), hexDigitChar ((a 3).val % 16),
       hexDigitChar ((a 4).val / 16), hexDigitChar ((a 4).val % 16),
       hexDigitChar ((a 5).val / 16), hexDigitChar ((a 5).val % 16)] := by
  have h6 : List.finRange 6 = [0, 1, 2, 3, 4, 5] := by decide
  simp [srcHex, h6, joinTokens, byteHex, String.data_append]

theorem hexDigitChar_ne_newline (d : Nat) : hexDigitChar d ≠ '\n' := by
  intro h
  have := hexDigitChar_mem d
  rw [h] at this
  exact absurd this (by decide)

theorem serialOut_nonProbe (info : EspplFrameInfo) (h8 : info.framesubtype ≠ 8)
    (hr' : ¬ info.rssi < RSSI_THRESHOLD) (h4 : info.framesubtype ≠ 4) :
    ∀ c ∈ (serialOut info).data, c ∈ nonProbeChars := by
  have hd : ∀ x ∈ decDigits, x ∈ nonProbeChars := by
    intro x hx; fin_cases hx <;> decide
  have hh : ∀ x ∈ hexDigits, x ∈ nonProbeChars := by
    intro x hx; fin_cases hx <;> decide
  intro c hc
  simp [serialOut, cb, h8, hr', h4, data_joinTokens] at hc
  rcases hc with h|h|h|h|h|h|h|h|h|h|h|h|h|h|h|h|h|h|h|h|h|h|h|h|h|h|h|h|h|h|h|h|⟨a,h⟩ <;>
  first
    | (subst h; decide)
    | exact hd _ (natRepr_mem h)
    | exact hh _ (byteHex_mem h)
    | (rcases intRepr_mem h with h2 | h2
       · subst h2
         decide
       · exact hd _ h2)

/-! ### Claim theorems -/

/-- Claim C1: for every captured frame whose subtype equals 8 (beacon),
the classifier produces no report and performs no further checks,
regardless of the frame's type, signal strength, channel, or source
address: `cb` emits nothing at all. -/
theorem C1_beacon_suppression (info : EspplFrameInfo)
    (h : info.framesubtype = 8) : cb info = [] := by
  simp [cb, h]

theorem C1_beacon_suppression_witness : cb beaconFrame = [] :=
  C1_beacon_suppression beaconFrame rfl

/-- Claim C2: for every non-beacon frame, the classifier drops the frame
(no output) exactly when its RSSI is strictly below the threshold `-60`;
in particular a frame exactly at the threshold is reported. -/
theorem C2_rssi_gate (info : EspplFrameInfo) (h : info.framesubtype ≠ 8) :
    cb info = [] ↔ info.rssi < RSSI_THRESHOLD := by
  unfold cb
  rw [if_neg h]
  by_cases hr : info.rssi < RSSI_THRESHOLD <;> simp [hr]

theorem C2_rssi_gate_witness :
    (cb thresholdFrame = [] ↔ thresholdFrame.rssi < RSSI_THRESHOLD) :=
  C2_rssi_gate thresholdFrame (by decide)

/-- Claim C9: the drop/keep decision depends only on subtype and RSSI:
two frames agreeing on those two fields are either both reported or both
dropped, whatever their type, channel or source address. -/
theorem C9_drop_noninterference (f g : EspplFrameInfo)
    (hs : f.framesubtype = g.framesubtype) (hr : f.rssi = g.rssi) :
    (cb f = [] ↔ cb g = []) := by
  by_cases h8 : g.framesubtype = 8
  · simp [cb, hs, hr, h8]
  · by_cases hlt : g.rssi < RSSI_THRESHOLD <;> simp [cb, hs, hr, h8, hlt]

theorem C9_drop_noninterference_witness :
    (cb oddSubtypeFrame = [] ↔ cb oddSubtypeFrame2 = []) :=
  C9_drop_noninterference oddSubtypeFrame oddSubtypeFrame2 rfl rfl

/-- Claim C3: every frame passing both filters is reported as, in order,
frame type, subtype, signed RSSI, channel (all decimal) and the source
address as twelve lowercase zero-padded hex digits with no separators
(followed by the probe tag when applicable), after the newline separator;
concretely the spec's sample frame `{type=0, subtype=4, rssi=-55,
channel=6, addr=aa:bb:cc:dd:ee:ff}` yields the report
`FT: 0 FST: 4 RSSI: -55 CH: 6 SRC: aabbccddeeff [PROBE]`. -/
theorem C3_report_format :
    (∀ info : EspplFrameInfo, info.framesubtype ≠ 8 →
        RSSI_THRESHOLD ≤ info.rssi →
        serialOut info = "\n" ++ (reportLine info ++ probeTag info))
    ∧ serialOut sampleFrame =
        "\nFT: 0 FST: 4 RSSI: -55 CH: 6 SRC: aabbccddeeff [PROBE]" := by
  constructor
  · intro info h8 hr
    have hr' : ¬ info.rssi < RSSI_THRESHOLD := not_lt.2 hr
    by_cases h4 : info.framesubtype = 4 <;>
    · apply String.ext
      simp [serialOut, cb, h8, hr', h4, data_joinTokens, reportLine,
        probeTag, srcHex, String.data_append]
  · decide

theorem C3_report_format_witness :
    serialOut sampleFrame =
      "\n" ++ (reportLine sampleFrame ++ probeTag sampleFrame) :=
  C3_report_format.1 sampleFrame (by decide) (by decide)

/-- Claim C7: classification is total — a frame whose subtype is neither
8 nor 4 hits no error branch: it merely skips the beacon and probe
special cases and, when its RSSI is at or above the threshold, is
reported like any other frame (the plain report line, no probe marker
among the emitted tokens). -/
theorem C7_total_fallthrough (info : EspplFrameInfo)
    (h8 : info.framesubtype ≠ 8) (h4 : info.framesubtype ≠ 4)
    (hr : RSSI_THRESHOLD ≤ info.rssi) :
    serialOut info = "\n" ++ reportLine info ∧ " [PROBE]" ∉ cb info := by
  have hr' : ¬ info.rssi < RSSI_THRESHOLD := not_lt.2 hr
  constructor
  · apply String.ext
    simp [serialOut, cb, h8, hr', h4, data_joinTokens, reportLine, srcHex,
      String.data_append]
  · intro hmem
    simp [cb, h8, hr', h4] at hmem
    rcases hmem with h | h | h | h | ⟨a, h⟩
    · exact natRepr_ne_probe _ h.symm
    · exact natRepr_ne_probe _ h.symm
    · exact intRepr_ne_probe _ h.symm
    · exact natRepr_ne_probe _ h.symm
    · exact byteHex_ne_probe _ h

theorem C7_total_fallthrough_witness :
    serialOut oddSubtypeFrame = "\n" ++ reportLine oddSubtypeFrame
      ∧ " [PROBE]" ∉ cb oddSubtypeFrame :=
  C7_total_fallthrough oddSubtypeFrame (by decide) (by decide) (by decide)

/-- Claim C4: for every reported frame (subtype not 8, RSSI at or above
the threshold), the serial output ends with the probe-request marker
`" [PROBE]"` if and only if the frame's subtype equals 4. -/
theorem C4_probe_marker (info : EspplFrameInfo) (h8 : info.framesubtype ≠ 8)
    (hr : RSSI_THRESHOLD ≤ info.rssi) :
    (∃ t, (serialOut info).data = t ++ (" [PROBE]").data) ↔
      info.framesubtype = 4 := by
  have hr' : ¬ info.rssi < RSSI_THRESHOLD := not_lt.2 hr
  constructor
  · rintro ⟨t, ht⟩
    by_contra h4
    have hbr : '[' ∈ (serialOut info).data := by
      rw [ht]
      exact List.mem_append.2 (Or.inr (by decide))
    exact absurd (serialOut_nonProbe info h8 hr' h4 '[' hbr) (by decide)
  · intro h4
    refine ⟨("\n" ++ reportLine info).data, ?_⟩
    rw [serialOut_eq info h8 hr']
    simp [probeTag, h4, String.data_append]

theorem C4_probe_marker_witness :
    (∃ t, (serialOut sampleFrame).data = t ++ (" [PROBE]").data) ↔
      sampleFrame.framesubtype = 4 :=
  C4_probe_marker sampleFrame (by decide) (by decide)

/-- Claim C10: every emitted report is prefixed with a single newline and
has no trailing newline: the output begins with `'\n'` immediately
followed by `"FT: "` (so the newline is the only separator between
consecutive reports), and its last character is not a newline. -/
theorem C10_newline_framing (info : EspplFrameInfo) (hne : cb info ≠ []) :
    (∃ rest, (serialOut info).data = '\n' :: 'F' :: 'T' :: ':' :: ' ' :: rest)
    ∧ ∃ t c, (serialOut info).data = t ++ [c] ∧ c ≠ '\n' := by
  have h8 : info.framesubtype ≠ 8 := by
    intro h; exact hne (by simp [cb, h])
  have hr' : ¬ info.rssi < RSSI_THRESHOLD := by
    intro h; exact hne (by simp [cb, h])
  constructor
  · refine ⟨(natRepr info.frametype ++ (" FST: " ++ (natRepr info.framesubtype ++
      (" RSSI: " ++ (intRepr info.rssi ++ (" CH: " ++ (natRepr info.channel ++
      (" SRC: " ++ (srcHex info.sourceaddr ++ probeTag info))))))))).data, ?_⟩
    rw [serialOut_eq info h8 hr']
    simp [reportLine, String.data_append]
  · by_cases h4 : info.framesubtype = 4
    · have heq : (serialOut info).data =
          ("\n" ++ reportLine info).data ++ (" [PROBE]").data := by
        rw [serialOut_eq info h8 hr']
        simp [probeTag, h4, String.data_append]
      rw [heq]
      exact concat_last_ne (by decide) (by decide)
    · have heq : (serialOut info).data =
          ("\n" ++ ("FT: " ++ natRepr info.frametype ++ " FST: " ++
            natRepr info.framesubtype ++ " RSSI: " ++ intRepr info.rssi ++
            " CH: " ++ natRepr info.channel ++ " SRC: ")).data ++
          (srcHex info.sourceaddr).data := by
        rw [serialOut_eq info h8 hr']
        simp [reportLine, probeTag, h4, String.data_append]
      rw [heq]
      apply concat_last_ne
      · rw [srcHex_data]
        simp
      · intro c hc
        rw [srcHex_data] at hc
        simp at hc
        rcases hc with h|h|h|h|h|h|h|h|h|h|h|h <;>
          (rw [h]; exact hexDigitChar_ne_newline _)

theorem C10_newline_framing_witness :
    (∃ rest, (serialOut thresholdFrame).data =
        '\n' :: 'F' :: 'T' :: ':' :: ' ' :: rest)
    ∧ ∃ t c, (serialOut thresholdFrame).data = t ++ [c] ∧ c ≠ '\n' :=
  C10_newline_framing thresholdFrame (by decide)

/-! ### Helper lemmas about the scheduler traces -/

theorem drainCalls_eq (k : Nat) :
    drainCalls k = List.replicate (k + 1) Event.poll := by
  induction k with
  | zero => rfl
  | succ k ih => simp [drainCalls, ih, List.replicate_succ]

theorem mem_drainCalls {k : Nat} {e : Event} (he : e ∈ drainCalls k) :
    e = Event.poll := by
  rw [drainCalls_eq] at he
  exact List.eq_of_mem_replicate he

theorem dwell_unroll (n : Nat) :
    ∀ (fuel j : Nat) (elapsed pending : Nat → Nat), n < fuel →
    (∀ m < n, elapsed (j + m) < DWELL_MS) →
    ¬ elapsed (j + n) < DWELL_MS →
    espplDwell fuel elapsed pending j =
      ((List.range n).flatMap (fun m => iterBlock (pending (j + m)))) ++
        [Event.timeCheck] := by
  induction n with
  | zero =>
    intro fuel j elapsed pending hfuel hlt hstop
    obtain ⟨f, rfl⟩ : ∃ f, fuel = f + 1 := ⟨fuel - 1, by omega⟩
    rw [espplDwell, if_neg (by simpa using hstop)]
    simp
  | succ n ih =>
    intro fuel j elapsed pending hfuel hlt hstop
    obtain ⟨f, rfl⟩ : ∃ f, fuel = f + 1 := ⟨fuel - 1, by omega⟩
    rw [espplDwell, if_pos (by simpa using hlt 0 (Nat.succ_pos n))]
    rw [ih f (j + 1) elapsed pending (by omega)
      (fun m hm => by
        have hm1 := hlt (m + 1) (by omega)
        have harg : j + (m + 1) = j + 1 + m := by omega
        rwa [harg] at hm1)
      (by
        have harg : j + 1 + n = j + (n + 1) := by omega
        rw [harg]
        exact hstop)]
    have hfun : (fun m => iterBlock (pending (j + 1 + m))) =
        (fun m => iterBlock (pending (j + (m + 1)))) := by
      funext m
      congr 2
      omega
    rw [hfun, List.range_succ_eq_map, List.flatMap_cons, List.flatMap_map]
    simp [iterBlock, Nat.succ_eq_add_one]

theorem count_yield_blocks (p : Nat → Nat) (n : Nat) :
    ((List.range n).flatMap (fun m => iterBlock (p m))).count Event.yieldCtrl
      = n := by
  induction n with
  | zero => rfl
  | succ n ih =>
    rw [List.range_succ, List.flatMap_append, List.count_append, ih]
    simp [iterBlock, drainCalls_eq, List.count_cons, List.count_append,
      List.count_replicate]

theorem mem_dwell_chanOf : ∀ (fuel j : Nat) (e p : Nat → Nat),
    ∀ x ∈ espplDwell fuel e p j, chanOf x = none := by
  intro fuel
  induction fuel with
  | zero =>
    intro j e p x hx
    simp [espplDwell] at hx
  | succ f ih =>
    intro j e p x hx
    rw [espplDwell] at hx
    split at hx
    · simp at hx
      rcases hx with rfl | hx
      · rfl
      rcases hx with h | rfl | h
      · rw [mem_drainCalls h]
        rfl
      · rfl
      · exact ih _ _ _ _ h
    · simp at hx
      subst hx
      rfl

theorem radioAfter_eq_of_no_set : ∀ (l : List Event) (init : Option Int),
    (∀ x ∈ l, chanOf x = none) → radioAfter init l = init := by
  intro l
  induction l with
  | nil => intro init _; rfl
  | cons e t ih =>
    intro init h
    have he := h e (by simp)
    cases e
    case setChannel c => simp [chanOf] at he
    all_goals exact ih init (fun x hx => h x (List.mem_cons_of_mem _ hx))

theorem flatMap_filterMap_eq (f : Nat → List Event) (vals : Nat → Int)
    (hf : ∀ i, (f i).filterMap chanOf = [vals i]) (l : List Nat) :
    (l.flatMap f).filterMap chanOf = l.map vals := by
  induction l with
  | nil => rfl
  | cons a t ih =>
    rw [List.flatMap_cons, List.filterMap_append, hf, ih]
    rfl

theorem visit_filterMap (c : Int) (fuel : Nat) (e p : Nat → Nat) :
    (visitEvents c fuel e p).filterMap chanOf = [c] := by
  rw [visitEvents, List.filterMap_cons]
  have h := List.filterMap_eq_nil_iff.2 (mem_dwell_chanOf fuel 0 e p)
  simp [chanOf, h]

theorem map_getD_range (chs : List Int) :
    (List.range chs.length).map (fun i => chs.getD i 0) = chs := by
  induction chs with
  | nil => rfl
  | cons a t ih =>
    rw [List.length_cons, List.range_succ_eq_map, List.map_cons,
      List.map_map]
    have hc : (fun i => (a :: t).getD i 0) ∘ Nat.succ =
        fun i => t.getD i 0 := by
      funext i
      simp [Nat.succ_eq_add_one, List.getD_cons_succ]
    rw [hc, ih]
    simp [List.getD_cons_zero]

/-- Claim C5: in every full cycle of `loop` over the configured channel
list, the `setChannel` activations are exactly the configured channels,
each once, in configured order (the trace's channel activations equal the
list itself); and during any executed part of a dwell window the active
radio channel stays the one activated at the window's start, whatever it
was before. -/
theorem C5_channel_cycle (chs : List Int) (fuel : Nat)
    (E P : Nat → Nat → Nat) :
    (loopEvents chs fuel E P).filterMap chanOf = chs
    ∧ ∀ (c : Int) (f : Nat) (e p : Nat → Nat) (init : Option Int)
        (l₁ l₂ : List Event), espplDwell f e p 0 = l₁ ++ l₂ →
        radioAfter init (Event.setChannel c :: l₁) = some c := by
  constructor
  · have h0 : (loopEvents chs fuel E P).filterMap chanOf =
        ((List.range chs.length).flatMap
          (fun i => visitEvents (chs.getD i 0) fuel (E i) (P i))).filterMap
          chanOf := rfl
    have h1 := flatMap_filterMap_eq
      (fun i => visitEvents (chs.getD i 0) fuel (E i) (P i))
      (fun i => chs.getD i 0)
      (fun i => visit_filterMap _ _ _ _) (List.range chs.length)
    rw [h0, h1, map_getD_range]
  · intro c f e p init l₁ l₂ hsplit
    have hno : ∀ x ∈ l₁, chanOf x = none := fun x hx =>
      mem_dwell_chanOf f 0 e p x (hsplit ▸ List.mem_append.2 (Or.inl hx))
    exact radioAfter_eq_of_no_set l₁ (some c) hno

theorem C5_channel_cycle_witness :
    (loopEvents channels 1 (fun _ _ => 300) (fun _ _ => 0)).filterMap chanOf
      = channels
    ∧ radioAfter none
        (Event.setChannel 1 :: espplDwell 1 (fun _ => 300) (fun _ => 0) 0)
      = some 1 :=
  ⟨(C5_channel_cycle channels 1 (fun _ _ => 300) (fun _ _ => 0)).1,
   (C5_channel_cycle channels 1 (fun _ _ => 300) (fun _ _ => 0)).2 1 1
     (fun _ => 300) (fun _ => 0) none _ [] (by simp)⟩

/-- Claim C8: the dwell-wait loop that runs `n` body iterations (the
clock stays under the window for the first `n` checks and reaches it at
check `n`) produces exactly, per iteration: the time check, the queue
drained until the poll reports empty, then exactly one yield before the
next time re-check; in total exactly `n` yields, one per iteration, never
skipped whatever the pending-frame load. -/
theorem C8_yield_every_iteration (fuel n j : Nat)
    (elapsed pending : Nat → Nat) (hfuel : n < fuel)
    (hlt : ∀ m < n, elapsed (j + m) < DWELL_MS)
    (hstop : ¬ elapsed (j + n) < DWELL_MS) :
    espplDwell fuel elapsed pending j =
      ((List.range n).flatMap (fun m => iterBlock (pending (j + m)))) ++
        [Event.timeCheck]
    ∧ (espplDwell fuel elapsed pending j).count Event.yieldCtrl = n := by
  have h := dwell_unroll n fuel j elapsed pending hfuel hlt hstop
  refine ⟨h, ?_⟩
  have hc := count_yield_blocks (fun m => pending (j + m)) n
  rw [h, List.count_append]
  simpa using hc

theorem C8_yield_every_iteration_witness :
    espplDwell 5 (fun m => m * 100) (fun _ => 2) 0 =
      ((List.range 3).flatMap (fun _ => iterBlock 2)) ++ [Event.timeCheck]
    ∧ (espplDwell 5 (fun m => m * 100) (fun _ => 2) 0).count
        Event.yieldCtrl = 3 :=
  C8_yield_every_iteration 5 3 0 (fun m => m * 100) (fun _ => 2)
    (by decide) (by decide) (by decide)

/-- Claim C6 (counterexample): the code performs no startup rejection of
configuration errors.  `setup` unconditionally delays, opens the serial
port, registers the callback and prints the banner, and even with an
empty channel list the scan loop is still entered: `loop` runs and starts
sniffing instead of halting. -/
theorem C6_counterexample :
    loopEvents [] 1 (fun _ _ => 0) (fun _ _ => 0) = [Event.sniffStart]
    ∧ setupEvents = [Event.delayMs 500, Event.serialBegin 115200,
        Event.espplInit, Event.printBanner] :=
  ⟨rfl, rfl⟩

/-- Claim C6 (amended): `setup` performs no configuration validation and
the scan loop is entered unconditionally for every configuration; the
claim's guarantee holds only because the build-time configuration is the
fixed non-empty list `{1, 4, 6, 11}` with the fixed positive dwell
duration 250 ms, so the scan loop is never actually run with an empty
channel list or non-positive dwell. -/
theorem C6_no_startup_validation (chs : List Int) (fuel : Nat)
    (E P : Nat → Nat → Nat) :
    channels ≠ [] ∧ 0 < DWELL_MS
    ∧ (loopEvents chs fuel E P).head? = some Event.sniffStart :=
  ⟨by decide, by decide, rfl⟩

end FriendDetector
